import Mathlib

/-!
Verification development for the apsg orientation-geometry and stereonet
plotting code.

The repository sources under version control here contain the plotting module
(`apsg/plotting/_stereonet.py`) and the test suite.  The core vector/feature
classes (`Vector3`, `Axial3`, `Lineation`, `Foliation`, `Pair`, `Fault`,
`FeatureSet`, the projections) are imported by that module but their sources
are not part of this tree, so they are modelled from the specification
(spec.md sections 3, 4.1-4.3, 4.5, 6): real 3-vectors, Rodrigues rotation by
an angle in degrees about an internally normalised axis, angles in degrees via
arccos, axial (sign-free) equality and angle folding, the Pair orthogonality
correction, Fault kinematic axes, and FeatureSet resultant statistics.

The stereonet plotting state machine (validation, artist caching, JSON
round-trip, projection-kind selection, NaN curve breaks) is translated
directly from `_stereonet.py`.
-/

noncomputable section RealGeometry

open Real

/-- A 3-component real vector, the model of apsg `Vector3`
(spec 3: "a 3-component real vector"). -/
@[ext]
structure Vec3 where
  x : ℝ
  y : ℝ
  z : ℝ

namespace Vec3

/-- The zero vector. -/
def zero : Vec3 := ⟨0, 0, 0⟩

/-- Componentwise addition (`Vector3.__add__`). -/
def add (u v : Vec3) : Vec3 := ⟨u.x + v.x, u.y + v.y, u.z + v.z⟩

/-- Negation (`flip` in the spec: "flip — negate"). -/
def neg (v : Vec3) : Vec3 := ⟨-v.x, -v.y, -v.z⟩

/-- Componentwise subtraction. -/
def sub (u v : Vec3) : Vec3 := ⟨u.x - v.x, u.y - v.y, u.z - v.z⟩

/-- Scalar multiple. -/
def smul (t : ℝ) (v : Vec3) : Vec3 := ⟨t * v.x, t * v.y, t * v.z⟩

/-- Dot product (`Vector3.dot`). -/
def dot (u v : Vec3) : ℝ := u.x * v.x + u.y * v.y + u.z * v.z

/-- Cross product (`Vector3.cross`). -/
def cross (u v : Vec3) : Vec3 :=
  ⟨u.y * v.z - u.z * v.y, u.z * v.x - u.x * v.z, u.x * v.y - u.y * v.x⟩

/-- Squared Euclidean length. -/
def normsq (v : Vec3) : ℝ := v.x ^ 2 + v.y ^ 2 + v.z ^ 2

/-- Euclidean length (`abs(Vector3)` in the code's float arithmetic,
modelled exactly over the reals). -/
def norm (v : Vec3) : ℝ := Real.sqrt (normsq v)

/-- Unit vector in the direction of `v` (`Vector3.uv()` / `normalized()`;
spec 3: "always normalizable to unit length on demand"). -/
def unit (v : Vec3) : Vec3 := smul (1 / norm v) v

end Vec3

/-- Degrees to radians. -/
def rad (d : ℝ) : ℝ := d * Real.pi / 180

/-- Radians to degrees. -/
def deg (r : ℝ) : ℝ := r * 180 / Real.pi

/-- Rodrigues rotation with the axis `a` given as a unit vector and the
rotation angle given by its cosine `c` and sine `s`:
`v cos θ + (a × v) sin θ + a (a·v)(1 − cos θ)`. -/
def rodrigues (v a : Vec3) (c s : ℝ) : Vec3 :=
  (Vec3.smul c v).add ((Vec3.smul s (Vec3.cross a v)).add
    (Vec3.smul ((1 - c) * Vec3.dot a v) a))

/-- Modelled from the spec: `Vector3.rotate(axis, angleDeg)` of the missing
`apsg.math._vector` module — "Rodrigues rotation formula, axis need not be
unit (normalized internally), angle measured right-hand rule", angle in
degrees (spec 4.1). -/
def rotate (v axis : Vec3) (theta : ℝ) : Vec3 :=
  rodrigues v (Vec3.unit axis) (Real.cos (rad theta)) (Real.sin (rad theta))

/-- Modelled from the spec: `Vector3.angle(other)` of the missing
`apsg.math._vector` module — "angle in degrees in [0,180] for polar"
(spec 4.1), i.e. arccos of the dot product of the unit vectors. -/
def angle (u v : Vec3) : ℝ :=
  deg (Real.arccos (Vec3.dot u v / (Vec3.norm u * Vec3.norm v)))

/-- Modelled from the spec: the axial (`Axial3`) angle of the missing
`apsg.math._vector` module — "folded to [0,90] for axial pairs (take the
smaller of angle and 180−angle)" (spec 4.1), realised as arccos of the
absolute dot product of the unit vectors. -/
def angleAxial (u v : Vec3) : ℝ :=
  deg (Real.arccos |Vec3.dot u v / (Vec3.norm u * Vec3.norm v)|)

/-- Modelled from the spec: axial equality of the missing `Axial3` class —
"for axial types, `v == w` iff `v == w` or `v == -w`" (spec 4.1; tolerance
is exact in this real-valued model). -/
def axialEq (v w : Vec3) : Prop := v = w ∨ v = w.neg

/-- Modelled from the spec: the stored `Pair.misfit` of the missing
`apsg.feature._geodata` module — "compute misfit = 90° − angle(lineation,
foliation)" (spec 4.2). -/
def pairMisfit (l f : Vec3) : ℝ := 90 - angle l f

/-- Modelled from the spec: the corrected lineation of a `Pair` from the
missing `apsg.feature._geodata` module — "symmetrically rotate both by half
the angular correction about their mutual cross-product axis so the
corrected pair is exactly orthogonal" (spec 4.2).  The lineation is rotated
away from the foliation pole by half the misfit. -/
def pairLvec (l f : Vec3) : Vec3 :=
  rotate l (Vec3.cross l f) (-(pairMisfit l f) / 2)

/-- Modelled from the spec: the corrected foliation pole of a `Pair` from the
missing `apsg.feature._geodata` module (spec 4.2); rotated by half the misfit
about the same mutual cross-product axis, in the opposite sense. -/
def pairFvec (l f : Vec3) : Vec3 :=
  rotate f (Vec3.cross l f) (pairMisfit l f / 2)

/-- Modelled from the spec: `Fault.rax` of the missing
`apsg.feature._geodata` module — "`rax` = the rotation axis itself", the
"foliation-pole cross-lineation axis" (spec 4.2).  `l` and `f` are the
stored (sense-folded) corrected lineation and foliation pole. -/
def faultRax (l f : Vec3) : Vec3 := Vec3.cross f l

/-- Modelled from the spec: the `Fault.p` shortening axis of the missing
`apsg.feature._geodata` module — "rotate the corrected lineation by ±45°
about the foliation-pole cross-lineation axis" (spec 4.2). -/
def faultP (l f : Vec3) : Vec3 := rotate l (faultRax l f) (-45)

/-- Modelled from the spec: the `Fault.t` extension axis of the missing
`apsg.feature._geodata` module — the opposite ±45° rotation (spec 4.2). -/
def faultT (l f : Vec3) : Vec3 := rotate l (faultRax l f) 45

/-- The flipped fault's stored lineation: the fault rotated by 180° about its
rotation axis `rax`, as in `test_fault_flip` (`fr = f.rotate(f.rax, 180)`). -/
def faultFlipL (l f : Vec3) : Vec3 := rotate l (faultRax l f) 180

/-- The flipped fault's stored foliation pole (180° rotation about `rax`). -/
def faultFlipF (l f : Vec3) : Vec3 := rotate f (faultRax l f) 180

/-- Modelled from the spec: `FeatureSet.resultant()` for polar vector sets of
the missing `apsg.feature._container` module — "vector sum of unit
directions" (spec 4.3); members are assumed given as unit vectors. -/
def resultantV (vs : List Vec3) : Vec3 := vs.foldl Vec3.add Vec3.zero

/-- Modelled from the spec: the axial canonicalised accumulation of the
missing `apsg.feature._container` module — "axial sets: canonicalize sign
before summing, e.g. flip any vector whose dot with a running reference is
negative, to avoid cancellation" (spec 4.3). -/
def axialAccum (acc v : Vec3) : Vec3 :=
  if Vec3.dot acc v < 0 then acc.sub v else acc.add v

/-- Modelled from the spec: `FeatureSet.resultant()` for axial sets
(spec 4.3), summing with the running resultant as the sign reference. -/
def resultantA (vs : List Vec3) : Vec3 := vs.foldl axialAccum Vec3.zero

/-- Modelled from the spec and `test_resultant_rdegree`: `FeatureSet.rdegree`
— "a normalized concentration measure derived from resultant length relative
to set size, scaled to a 0–100 range" (spec 4.3); the test pins
`(rdegree/100 + 1)^2 = 2` for `|R| = sqrt 8`, `n = 4`, i.e.
`rdegree = 100*(2*|R| - n)/n`. -/
def rdegreeV (vs : List Vec3) : ℝ :=
  100 * (2 * Vec3.norm (resultantV vs) - vs.length) / vs.length

/-- Modelled from the spec: `rdegree` of an axial set (spec 4.3), using the
sign-canonicalised resultant. -/
def rdegreeA (vs : List Vec3) : ℝ :=
  100 * (2 * Vec3.norm (resultantA vs) - vs.length) / vs.length

end RealGeometry

/-! ## StereoNet plotting state machine, translated from `_stereonet.py` -/

/-- Python type tags of the objects that can reach a `StereoNet` plotting
method.  The subclass facts used by `issubclass` in the validators —
`Lineation`/`Foliation` are `Vector3` subclasses and the typed sets are
`Vector3Set` subclasses — come from the spec's data model (spec 2, 3). -/
inductive AVal where
  | vec : AVal
  | lineation : AVal
  | foliation : AVal
  | vecSet : Nat → AVal
  | linSet : Nat → AVal
  | folSet : Nat → AVal
  | num : Int → AVal
  | numList : List Int → AVal
  | other : AVal
deriving DecidableEq, Repr

/-- `issubclass(type(arg), Vector3)`. -/
def isVector3 : AVal → Bool
  | .vec | .lineation | .foliation => true
  | _ => false

/-- `issubclass(type(arg), Vector3Set)` with its element count. -/
def setSize : AVal → Option Nat
  | .vecSet n | .linSet n | .folSet n => some n
  | _ => none

/-- `issubclass(type(arg), (Vector3, Vector3Set))`. -/
def isVector3OrSet (a : AVal) : Bool := isVector3 a || (setSize a).isSome

/-- `issubclass(type(arg), (Foliation, FoliationSet))`. -/
def isFoliationOrSet : AVal → Bool
  | .foliation | .folSet _ => true
  | _ => false

/-- An argument object passed to a plotting call: its Python `id()` and its
runtime type tag. -/
structure Arg where
  aid : Nat
  val : AVal
deriving DecidableEq, Repr

/-- An entry of `StereoNet._artists`: the deferred plot method name, the ids
of the cached argument objects and the parsed kwargs (kept abstract). -/
structure Artist where
  method : String
  argIds : List Nat
  kw : String
deriving DecidableEq, Repr

/-- The deferred-plotting state of a `StereoNet`: the `show_warnings` flag,
the `_data` object cache (insertion-ordered `id -> object` map) and the
`_artists` list. -/
structure NetState where
  showWarnings : Bool
  data : List (Nat × AVal)
  artists : List Artist
deriving DecidableEq, Repr

/-- The keys of the `_data` cache. -/
def dataKeys (d : List (Nat × AVal)) : List Nat := d.map Prod.fst

/-- The caching loop of `StereoNet.__add_artist`: each argument is stored
under its id unless already cached. -/
def cacheArgs (d : List (Nat × AVal)) : List Arg → List (Nat × AVal)
  | [] => d
  | a :: rest =>
      cacheArgs (if (dataKeys d).contains a.aid then d else d ++ [(a.aid, a.val)]) rest

/-- `StereoNet.__add_artist`: cache the arguments and append one artist
record referencing them by id. -/
def addArtist (st : NetState) (method : String) (args : List Arg) (kw : String) :
    NetState :=
  { st with
    data := cacheArgs st.data args
    artists := st.artists ++ [⟨method, args.map Arg.aid, kw⟩] }

/-- The result of one of the defined `__validate_*_args` validators:
accepted, or rejected together with a flag telling whether the warning
`print` statement was reached (in the source the `print` sits inside the
`if args:` block after the failed type test, so an empty argument list is
rejected without any message even when `show_warnings` is set). -/
inductive VOutcome where
  | accept : VOutcome
  | reject : Bool → VOutcome
deriving DecidableEq, Repr

/-- Whether a validator accepted. -/
def VOutcome.isAccept : VOutcome → Bool
  | .accept => true
  | .reject _ => false

/-- `StereoNet.__validate_linear_args` (also `__validate_vector_args`):
accept a nonempty list of `Vector3`- or `Vector3Set`-like arguments; reject
anything else, reaching the warning `print` only when the list is
nonempty. -/
def validateLinearArgs (args : List Arg) : VOutcome :=
  if args.isEmpty then .reject false
  else if args.all (fun a => isVector3OrSet a.val) then .accept
  else .reject true

/-- `StereoNet.__validate_great_circle_args`: accept a nonempty list of
`Foliation`- or `FoliationSet`-like arguments; the warning `print` is
reached only for a nonempty wrongly-typed list. -/
def validateGreatCircleArgs (args : List Arg) : VOutcome :=
  if args.isEmpty then .reject false
  else if args.all (fun a => isFoliationOrSet a.val) then .accept
  else .reject true

/-- `len(obj)` of a runtime value: a `Vector3`-like has length 3
(`test_length_method`), the sets and a list of ints their element count;
`len` of an int or of another unsized foreign object raises `TypeError`
(`none`). -/
def pyLen : AVal → Option Nat
  | .vec | .lineation | .foliation => some 3
  | .vecSet n | .linSet n | .folSet n => some n
  | .numList qs => some qs.length
  | .num _ => none
  | .other => none

/-- `all(issubclass(type(arg), (Vector3, Vector3Set)) for arg in a)`:
iterating a `Vector3`-like yields its three float components (`false`);
iterating a set yields `Vector3`-likes (`true`); iterating a list of ints
yields ints (`true` only when the list is empty); an int or another
non-iterable foreign object raises `TypeError` (`none`). -/
def iterAllVector3OrSet : AVal → Option Bool
  | .vec | .lineation | .foliation => some false
  | .vecSet _ | .linSet _ | .folSet _ => some true
  | .numList qs => some qs.isEmpty
  | .num _ => none
  | .other => none

/-- `StereoNet.__validate_cone_args`: with two arguments, accept when the
first is `Vector3`-like (the second is then not inspected at all), or when
the first is a collection of `Vector3`-like objects whose `len` equals the
`len` of the second; iterating a non-iterable first argument, or taking
`len` of an unsized second argument, raises `TypeError` (`none`); any other
argument count is rejected without reaching the warning `print`. -/
def validateConeArgs (args : List Arg) : Option VOutcome :=
  match args with
  | [a0, a1] =>
      if isVector3 a0.val then some .accept
      else
        match iterAllVector3OrSet a0.val with
        | none => none
        | some false => some (.reject true)
        | some true =>
            match pyLen a0.val, pyLen a1.val with
            | some n0, some n1 =>
                if n0 == n1 then some .accept else some (.reject true)
            | _, _ => none
  | _ => some (.reject false)

/-- `StereoNet.__validate_contourf_args`: accept a nonempty list of
`Vector3Set`-like arguments; the warning `print` is reached only for a
nonempty wrongly-typed list. -/
def validateContourfArgs (args : List Arg) : VOutcome :=
  if args.isEmpty then .reject false
  else if args.all (fun a => (setSize a.val).isSome) then .accept
  else .reject true

/-- One public plotting-API call on a `StereoNet`. -/
inductive PlotCall where
  | line : List Arg → String → PlotCall
  | pole : List Arg → String → PlotCall
  | vector : List Arg → String → PlotCall
  | greatCircle : List Arg → String → PlotCall
  | cone : List Arg → String → PlotCall
  | contourf : List Arg → String → PlotCall
  | clear : PlotCall
deriving DecidableEq, Repr

/-- Whether a call is a plotting call (as opposed to `clear`). -/
def PlotCall.isPlotting : PlotCall → Bool
  | .clear => false
  | _ => true

/-- The deferred `_`-method name each call records when it appends an
artist (`pole` would record `"_line"`, but see `step`: it never gets
there). -/
def callMethod : PlotCall → String
  | .line _ _ => "_line"
  | .pole _ _ => "_line"
  | .vector _ _ => "_vector"
  | .greatCircle _ _ => "_great_circle"
  | .cone _ _ => "_cone"
  | .contourf _ _ => "_contourf"
  | .clear => ""

/-- The args of a call. -/
def callArgs : PlotCall → List Arg
  | .line args _ => args
  | .pole args _ => args
  | .vector args _ => args
  | .greatCircle args _ => args
  | .cone args _ => args
  | .contourf args _ => args
  | .clear => []

/-- The kwargs of a call (kept abstract). -/
def callKw : PlotCall → String
  | .line _ kw => kw
  | .pole _ kw => kw
  | .vector _ kw => kw
  | .greatCircle _ kw => kw
  | .cone _ kw => kw
  | .contourf _ kw => kw
  | .clear => ""

/-- How a call returns to the caller: normally; after printing a validation
warning; silently skipped (validation failed but its `print` was not
reached, or `show_warnings` is off); or by raising an exception that
propagates before any state change. -/
inductive Outcome where
  | ok : Outcome
  | warned : Outcome
  | silent : Outcome
  | raised : Outcome
deriving DecidableEq, Repr

/-- Finish a plotting call from its validator result: an accepted call
caches its arguments and appends one artist record; a rejected call returns
with the state unchanged, warning only when the validator reached its
`print` and `show_warnings` is set; a validator that raised `TypeError`
propagates it with the state unchanged. -/
def stepValidated (st : NetState) (method : String) (args : List Arg)
    (kw : String) : Option VOutcome → NetState × List String × Outcome
  | some .accept => (addArtist st method args kw, [], .ok)
  | some (.reject p) =>
      (st, [], if p && st.showWarnings then .warned else .silent)
  | none => (st, [], .raised)

/-- One step of the deferred-plotting state machine: the successor state,
the list of draw commands issued to the canvas (always empty — drawing
happens only in `show`/`__plot_artists`), and the call outcome.  Translated
from `StereoNet.line/pole/vector/great_circle/cone/contourf/clear`.  `pole`
(source line 270) calls `self.__validate_planar_args`, a method defined
nowhere in the class (the defined validators are the linear, vector,
great-circle, cone and contourf ones), so every `pole` call raises
`AttributeError` before any validation or state change. -/
def step (st : NetState) (c : PlotCall) : NetState × List String × Outcome :=
  match c with
  | .clear => ({ st with data := [], artists := [] }, [], .ok)
  | .pole _ _ => (st, [], .raised)
  | .line args kw =>
      stepValidated st "_line" args kw (some (validateLinearArgs args))
  | .vector args kw =>
      stepValidated st "_vector" args kw (some (validateLinearArgs args))
  | .greatCircle args kw =>
      stepValidated st "_great_circle" args kw
        (some (validateGreatCircleArgs args))
  | .cone args kw => stepValidated st "_cone" args kw (validateConeArgs args)
  | .contourf args kw =>
      stepValidated st "_contourf" args kw (some (validateContourfArgs args))

/-- Whether the call runs a validator that accepts its arguments (`pole`
never validates — it raises first; `clear` is not a plotting call). -/
def callAccepts : PlotCall → Bool
  | .line args _ => (validateLinearArgs args).isAccept
  | .pole _ _ => false
  | .vector args _ => (validateLinearArgs args).isAccept
  | .greatCircle args _ => (validateGreatCircleArgs args).isAccept
  | .cone args _ =>
      match validateConeArgs args with
      | some v => v.isAccept
      | none => false
  | .contourf args _ => (validateContourfArgs args).isAccept
  | .clear => false

/-- A fresh `StereoNet` deferred-plotting state (`__init__`). -/
def initState (sw : Bool) : NetState := ⟨sw, [], []⟩

/-- Run a sequence of calls from a state. -/
def runCalls (st : NetState) (cs : List PlotCall) : NetState :=
  cs.foldl (fun s c => (step s c).1) st

/-- The C10 invariant: every object id referenced by an artist record is a
key of the `_data` cache. -/
def idsClosed (st : NetState) : Prop :=
  ∀ ar ∈ st.artists, ∀ i ∈ ar.argIds, i ∈ dataKeys st.data

instance (st : NetState) : Decidable (idsClosed st) := by
  unfold idsClosed; infer_instance

/-! ## Projection kind selection (`StereoNet.__init__`) -/

/-- The two implemented projections (`EqualAreaProj`, `EqualAngleProj`). -/
inductive ProjKind where
  | equalArea : ProjKind
  | equalAngle : ProjKind
deriving DecidableEq, Repr

/-- The projection-kind dispatch of `StereoNet.__init__`:
`kind = str(kwargs.get("kind", "Equal-area")).lower()`, equal-area for
`equal-area`/`schmidt`/`earea`, equal-angle for `equal-angle`/`wulff`/
`eangle`, otherwise `raise TypeError(...)` (modelled as `none`). -/
def selectProjection (kindArg : String) : Option ProjKind :=
  let kind := kindArg.toLower
  if kind ∈ ["equal-area", "schmidt", "earea"] then some .equalArea
  else if kind ∈ ["equal-angle", "wulff", "eangle"] then some .equalAngle
  else none

/-! ## Serialization (`StereoNet.to_json` / `from_json`) -/

/-- Modelled from the spec: a cached data object of the missing feature
modules, carried by its defining parameters — "a feature's defining
parameters (geo pair, or azimuth/dip/sense for Fault)" (spec 6). -/
inductive DataObj where
  | lineation : ℚ → ℚ → DataObj
  | foliation : ℚ → ℚ → DataObj
  | fault : ℚ → ℚ → ℚ → ℚ → ℚ → DataObj
deriving DecidableEq, Repr

/-- The serialized record of one data object: a type tag plus its defining
arguments ("plus a type tag; ... plain structured records suffice",
spec 6). -/
structure ObjJson where
  datatype : String
  args : List ℚ
deriving DecidableEq, Repr

/-- Modelled from the spec: `obj.to_json()` of the missing feature classes —
serialize the type tag and the defining parameters (spec 6). -/
def DataObj.to_json : DataObj → ObjJson
  | .lineation azi inc => ⟨"Lineation", [azi, inc]⟩
  | .foliation azi inc => ⟨"Foliation", [azi, inc]⟩
  | .fault fazi finc lazi linc sense => ⟨"Fault", [fazi, finc, lazi, linc, sense]⟩

/-- `parse_json_data` inside `StereoNet.from_json`: look the class up by its
`datatype` tag and apply it to the stored args; an unknown tag or a wrong
argument list fails (Python would raise). -/
def parseJsonData (j : ObjJson) : Option DataObj :=
  match j.datatype, j.args with
  | "Lineation", [azi, inc] => some (.lineation azi inc)
  | "Foliation", [azi, inc] => some (.foliation azi inc)
  | "Fault", [fazi, finc, lazi, linc, sense] => some (.fault fazi finc lazi linc sense)
  | _, _ => none

/-- The serializable state of a `StereoNet`: the constructor kwargs (kept
abstract), the `_data` cache of feature objects keyed by id, and the
`_artists` records. -/
structure SNet where
  kwargs : List (String × String)
  data : List (Nat × DataObj)
  artists : List Artist
deriving DecidableEq, Repr

/-- The dictionary produced by `StereoNet.to_json`. -/
structure NetJson where
  kwargs : List (String × String)
  data : List (Nat × ObjJson)
  artists : List Artist
deriving DecidableEq, Repr

/-- `StereoNet.to_json`: `dict(kwargs=self._kwargs, data={obj_id:
obj.to_json() ...}, artists=self._artists)`. -/
def SNet.to_json (s : SNet) : NetJson :=
  ⟨s.kwargs, s.data.map (fun e => (e.1, e.2.to_json)), s.artists⟩

/-- The data-parsing loop of `StereoNet.from_json`, failing if any entry
fails to parse. -/
def parseDataEntries : List (Nat × ObjJson) → Option (List (Nat × DataObj))
  | [] => some []
  | e :: rest =>
      match parseJsonData e.2, parseDataEntries rest with
      | some o, some os => some ((e.1, o) :: os)
      | _, _ => none

/-- `StereoNet.from_json`: rebuild the net from the stored kwargs, parse
each data entry from its type tag and args, and copy the artists verbatim. -/
def SNet.from_json (j : NetJson) : Option SNet :=
  (parseDataEntries j.data).map (fun d => ⟨j.kwargs, d, j.artists⟩)

/-! ## Vector plotting with antipodal projection (`StereoNet._vector`) -/

/-- A 3-vector with rational components, used for the computable plotting
models (the float coordinates of the Python code). -/
structure Vec3Q where
  x : ℚ
  y : ℚ
  z : ℚ
deriving DecidableEq, Repr

/-- Negation of a rational 3-vector. -/
def Vec3Q.neg (v : Vec3Q) : Vec3Q := ⟨-v.x, -v.y, -v.z⟩

/-- Modelled from the spec: `project_data_antipodal` of the missing
`apsg.plotting._projection` module — "projects a vector and its negation
separately, used for true (non-axial) vectors plotted as filled/open marker
pairs" (spec 4.5); the hemisphere projection itself is the parameter
`project`. -/
def projectAntipodal (project : Vec3Q → ℚ × ℚ) (v : Vec3Q) :
    (ℚ × ℚ) × (ℚ × ℚ) :=
  (project v, project v.neg)

/-- The marker kwargs produced by `__parse_vector_args` that matter for the
filled/open marker pair: edge color, face color and legend label. -/
structure MarkerKw where
  mec : Option String
  mfc : Option String
  label : Option String
deriving DecidableEq, Repr

/-- `__parse_default_linear_kwargs` restricted to the marker fields: a given
`color` sets both `mec` and `mfc` (a filled marker of that color). -/
def parseVectorKw (color : Option String) (label : Option String) : MarkerKw :=
  match color with
  | some c => ⟨some c, some c, label⟩
  | none => ⟨none, none, label⟩

/-- `handle.get_color()` of the lower-hemisphere handle: its edge color when
one was given, otherwise the first color of matplotlib's default cycle. -/
def handleColor (kw : MarkerKw) : String := kw.mec.getD "C0"

/-- One plotted marker: its disc position and its style. -/
structure Marker where
  pos : ℚ × ℚ
  style : MarkerKw
deriving DecidableEq, Repr

/-- `StereoNet._vector`: project the vector and its negation with
`project_data_antipodal`, plot the lower-hemisphere point with the parsed
kwargs, then plot the upper-hemisphere point after setting `label = None`,
`color = h.get_color()` and `mfc = "none"`. -/
def vectorDraw (project : Vec3Q → ℚ × ℚ) (v : Vec3Q) (kw : MarkerKw) :
    List Marker :=
  let lower := (projectAntipodal project v).1
  let upper := (projectAntipodal project v).2
  let cc := handleColor kw
  [⟨lower, kw⟩, ⟨upper, ⟨some cc, some "none", none⟩⟩]

/-! ## Break (NaN) markers in generated polylines
(`StereoNet._great_circle`, `StereoNet._cone`, `StereoNetOld._cone`) -/

/-- A projected polyline entry: a coordinate pair, or `none` for the `np.nan`
break marker. -/
abbrev PathPt := Option (ℚ × ℚ)

/-- The branch-accumulation loop shared by `StereoNet._great_circle` and
`StereoNet._cone`: for every feature, the projected lower-hemisphere branch
followed by `np.nan`, then the projected upper-hemisphere branch followed by
`np.nan` (`X.append(np.hstack((x, np.nan)))`), all concatenated
(`np.hstack(X)`).  The projected sample points of the two branches are the
parameters `lower` and `upper`. -/
def curvePath {F : Type} (lower upper : F → List (ℚ × ℚ)) (feats : List F) :
    List PathPt :=
  feats.flatMap fun f =>
    ((lower f).map some ++ [none]) ++ ((upper f).map some ++ [none])

/-- Squared planar distance between consecutive projected points;
`np.hypot(np.diff(x), np.diff(y)) > 1` iff the squared distance exceeds 1. -/
def distSq (p q : ℚ × ℚ) : ℚ := (p.1 - q.1) ^ 2 + (p.2 - q.2) ^ 2

/-- The `split=True` break insertion of `StereoNetOld._cone`:
`dist = np.hypot(np.diff(x), np.diff(y)); ix = np.nonzero(dist > 1)[0];
x = np.insert(x, ix + 1, np.nan)` — a `np.nan` entry is inserted between
every two consecutive points whose distance jumps above 1. -/
def splitBreaks : List (ℚ × ℚ) → List PathPt
  | [] => []
  | [p] => [some p]
  | p :: q :: rest =>
      if distSq p q > 1 then some p :: none :: splitBreaks (q :: rest)
      else some p :: splitBreaks (q :: rest)

/-- No rendered segment between two kept points spans a jump above the break
threshold: whenever two adjacent polyline entries are both actual points,
their squared distance is at most 1. -/
def noChord (a b : PathPt) : Prop :=
  ∀ p q, a = some p → b = some q → distSq p q ≤ 1

instance (a b : PathPt) : Decidable (noChord a b) := by
  unfold noChord
  cases a <;> cases b <;> simp <;> infer_instance

/-! ## FeatureSet construction type errors -/

/-- Whether a runtime value is an instance of the named feature class
(subclass facts as in `isVector3`). -/
def matchesDtype (dtype : String) (a : AVal) : Bool :=
  match dtype with
  | "Vector3" => isVector3 a
  | "Lineation" => a == .lineation
  | "Foliation" => a == .foliation
  | _ => false

/-- Modelled from the spec: the typed `FeatureSet` constructor of the missing
`apsg.feature._container` module — "*TypeMismatch* (FeatureSet constructed
from heterogeneous or wrong-typed elements)" raises immediately (spec 7;
`test_group_type_error` expects the message
`"Data must be instances of <dtype>"`). -/
def featureSetMk (dtype : String) (elems : List AVal) :
    Except String (List AVal) :=
  if elems.all (matchesDtype dtype) then .ok elems
  else .error ("Data must be instances of " ++ dtype)

/-! ## Helper lemmas: vector algebra -/

theorem dot_cross_left (u v : Vec3) : Vec3.dot (Vec3.cross u v) u = 0 := by
  simp only [Vec3.dot, Vec3.cross]; ring

theorem dot_cross_right (u v : Vec3) : Vec3.dot (Vec3.cross u v) v = 0 := by
  simp only [Vec3.dot, Vec3.cross]; ring

theorem dot_smul_left (t : ℝ) (u v : Vec3) :
    Vec3.dot (Vec3.smul t u) v = t * Vec3.dot u v := by
  simp only [Vec3.dot, Vec3.smul]; ring

theorem dot_smul_both (t s : ℝ) (u v : Vec3) :
    Vec3.dot (Vec3.smul t u) (Vec3.smul s v) = t * s * Vec3.dot u v := by
  simp only [Vec3.dot, Vec3.smul]; ring

theorem normsq_eq_dot (v : Vec3) : Vec3.normsq v = Vec3.dot v v := by
  simp only [Vec3.normsq, Vec3.dot]; ring

theorem normsq_nonneg (v : Vec3) : 0 ≤ Vec3.normsq v := by
  simp only [Vec3.normsq]; positivity

theorem normsq_pos (v : Vec3) (hv : v ≠ Vec3.zero) : 0 < Vec3.normsq v := by
  rcases lt_or_eq_of_le (normsq_nonneg v) with h | h
  · exact h
  · exfalso
    apply hv
    simp only [Vec3.normsq] at h
    have hx : v.x = 0 := by nlinarith [sq_nonneg v.x, sq_nonneg v.y, sq_nonneg v.z]
    have hy : v.y = 0 := by nlinarith [sq_nonneg v.x, sq_nonneg v.y, sq_nonneg v.z]
    have hz : v.z = 0 := by nlinarith [sq_nonneg v.x, sq_nonneg v.y, sq_nonneg v.z]
    ext <;> simp [Vec3.zero, hx, hy, hz]

theorem vnorm_nonneg (v : Vec3) : 0 ≤ Vec3.norm v := Real.sqrt_nonneg _

theorem norm_sq_eq (v : Vec3) : Vec3.norm v ^ 2 = Vec3.normsq v :=
  Real.sq_sqrt (normsq_nonneg v)

theorem norm_pos (v : Vec3) (hv : v ≠ Vec3.zero) : 0 < Vec3.norm v :=
  Real.sqrt_pos.mpr (normsq_pos v hv)

theorem norm_eq_one (v : Vec3) (h : Vec3.dot v v = 1) : Vec3.norm v = 1 := by
  have : Vec3.normsq v = 1 := by rw [normsq_eq_dot, h]
  simp [Vec3.norm, this]

theorem norm_neg_eq (v : Vec3) : Vec3.norm v.neg = Vec3.norm v := by
  have : Vec3.normsq v.neg = Vec3.normsq v := by
    simp only [Vec3.normsq, Vec3.neg]; ring
  simp [Vec3.norm, this]

theorem dot_neg_right (u v : Vec3) : Vec3.dot u v.neg = -Vec3.dot u v := by
  simp only [Vec3.dot, Vec3.neg]; ring

theorem smul_one (v : Vec3) : Vec3.smul 1 v = v := by
  ext <;> simp [Vec3.smul]

theorem unit_dot_self (a : Vec3) (ha : a ≠ Vec3.zero) :
    Vec3.dot (Vec3.unit a) (Vec3.unit a) = 1 := by
  have hn : 0 < Vec3.norm a := norm_pos a ha
  rw [Vec3.unit, dot_smul_both, ← normsq_eq_dot, ← norm_sq_eq]
  field_simp
  ring

theorem unit_of_dot_one (a : Vec3) (ha : Vec3.dot a a = 1) : Vec3.unit a = a := by
  rw [Vec3.unit, norm_eq_one a ha]
  norm_num [smul_one]

/-! ## Helper lemmas: Rodrigues rotation -/

theorem rodrigues_dot_pres (u v a : Vec3) (c s : ℝ)
    (ha : Vec3.dot a a = 1) (hcs : c ^ 2 + s ^ 2 = 1) :
    Vec3.dot (rodrigues u a c s) (rodrigues v a c s) = Vec3.dot u v := by
  have key : Vec3.dot (rodrigues u a c s) (rodrigues v a c s) - Vec3.dot u v =
      (c ^ 2 + s ^ 2 - 1) * (Vec3.dot u v - Vec3.dot a u * Vec3.dot a v) +
      (Vec3.dot a a - 1) *
        (s ^ 2 * Vec3.dot u v + (1 - c) ^ 2 * (Vec3.dot a u * Vec3.dot a v)) := by
    simp only [rodrigues, Vec3.dot, Vec3.add, Vec3.smul, Vec3.cross]
    ring
  rw [ha, hcs] at key
  linarith

theorem rodrigues_perp_dot (u v a : Vec3) (c1 s1 c2 s2 : ℝ)
    (ha : Vec3.dot a a = 1) (hu : Vec3.dot a u = 0) :
    Vec3.dot (rodrigues u a c1 s1) (rodrigues v a c2 s2) =
      (c1 * c2 + s1 * s2) * Vec3.dot u v +
      (s1 * c2 - c1 * s2) * Vec3.dot a (Vec3.cross u v) := by
  have key : Vec3.dot (rodrigues u a c1 s1) (rodrigues v a c2 s2) =
      ((c1 * c2 + s1 * s2) * Vec3.dot u v +
        (s1 * c2 - c1 * s2) * Vec3.dot a (Vec3.cross u v)) +
      (Vec3.dot a a - 1) *
        (s1 * s2 * Vec3.dot u v + (1 - c1) * (1 - c2) * (Vec3.dot a u * Vec3.dot a v)) +
      (Vec3.dot a u * Vec3.dot a v) * (1 - c1 * c2 - s1 * s2) := by
    simp only [rodrigues, Vec3.dot, Vec3.add, Vec3.smul, Vec3.cross]
    ring
  rw [ha, hu] at key
  simpa using key

theorem rodrigues_neg (v a : Vec3) (c s : ℝ) :
    rodrigues v.neg a c s = (rodrigues v a c s).neg := by
  simp only [rodrigues, Vec3.neg, Vec3.add, Vec3.smul, Vec3.cross, Vec3.dot,
    Vec3.mk.injEq]
  refine ⟨by ring, by ring, by ring⟩

theorem rodrigues_add (u v a : Vec3) (c s : ℝ) :
    rodrigues (u.add v) a c s = (rodrigues u a c s).add (rodrigues v a c s) := by
  simp only [rodrigues, Vec3.add, Vec3.smul, Vec3.cross, Vec3.dot, Vec3.mk.injEq]
  refine ⟨by ring, by ring, by ring⟩

theorem rodrigues_sub (u v a : Vec3) (c s : ℝ) :
    rodrigues (u.sub v) a c s = (rodrigues u a c s).sub (rodrigues v a c s) := by
  simp only [rodrigues, Vec3.sub, Vec3.add, Vec3.smul, Vec3.cross, Vec3.dot,
    Vec3.mk.injEq]
  refine ⟨by ring, by ring, by ring⟩

theorem rodrigues_zero_vec (a : Vec3) (c s : ℝ) :
    rodrigues Vec3.zero a c s = Vec3.zero := by
  simp only [rodrigues, Vec3.zero, Vec3.add, Vec3.smul, Vec3.cross, Vec3.dot,
    Vec3.mk.injEq]
  refine ⟨by ring, by ring, by ring⟩

theorem rotate_dot_pres (u v axis : Vec3) (theta : ℝ) (hax : axis ≠ Vec3.zero) :
    Vec3.dot (rotate u axis theta) (rotate v axis theta) = Vec3.dot u v :=
  rodrigues_dot_pres u v _ _ _ (unit_dot_self axis hax)
    (Real.cos_sq_add_sin_sq (rad theta))

theorem rotate_neg (v axis : Vec3) (theta : ℝ) :
    rotate v.neg axis theta = (rotate v axis theta).neg :=
  rodrigues_neg v _ _ _

theorem rotate_add (u v axis : Vec3) (theta : ℝ) :
    rotate (u.add v) axis theta = (rotate u axis theta).add (rotate v axis theta) :=
  rodrigues_add u v _ _ _

theorem rotate_sub (u v axis : Vec3) (theta : ℝ) :
    rotate (u.sub v) axis theta = (rotate u axis theta).sub (rotate v axis theta) :=
  rodrigues_sub u v _ _ _

theorem rotate_zero_vec (axis : Vec3) (theta : ℝ) :
    rotate Vec3.zero axis theta = Vec3.zero :=
  rodrigues_zero_vec _ _ _

theorem rotate_normsq (v axis : Vec3) (theta : ℝ) (hax : axis ≠ Vec3.zero) :
    Vec3.normsq (rotate v axis theta) = Vec3.normsq v := by
  rw [normsq_eq_dot, normsq_eq_dot]
  exact rotate_dot_pres v v axis theta hax

theorem rotate_norm (v axis : Vec3) (theta : ℝ) (hax : axis ≠ Vec3.zero) :
    Vec3.norm (rotate v axis theta) = Vec3.norm v := by
  simp [Vec3.norm, rotate_normsq v axis theta hax]

/-! ## Helper lemmas: angles in degrees -/

theorem deg_zero : deg 0 = 0 := by simp [deg]

theorem deg_pi : deg Real.pi = 180 := by
  rw [deg]
  field_simp

theorem deg_pi_div_two : deg (Real.pi / 2) = 90 := by
  rw [deg]
  field_simp
  ring

theorem angle_self_unit (u : Vec3) (hu : Vec3.dot u u = 1) : angle u u = 0 := by
  rw [angle, norm_eq_one u hu, hu]
  norm_num [Real.arccos_one, deg_zero]

theorem angle_neg_self_unit (u : Vec3) (hu : Vec3.dot u u = 1) :
    angle u u.neg = 180 := by
  rw [angle, norm_eq_one u hu, norm_neg_eq, norm_eq_one u hu, dot_neg_right, hu]
  norm_num [Real.arccos_neg_one, deg_pi]

theorem angleAxial_neg_self_unit (u : Vec3) (hu : Vec3.dot u u = 1) :
    angleAxial u u.neg = 0 := by
  rw [angleAxial, norm_eq_one u hu, norm_neg_eq, norm_eq_one u hu, dot_neg_right, hu]
  norm_num [Real.arccos_one, deg_zero]

theorem angle_eq_ninety (u v : Vec3) (hu : Vec3.dot u u = 1)
    (hv : Vec3.dot v v = 1) (huv : Vec3.dot u v = 0) : angle u v = 90 := by
  rw [angle, norm_eq_one u hu, norm_eq_one v hv, huv]
  norm_num [Real.arccos_zero, deg_pi_div_two]

/-! ## C4 -/

/-- C4: for every axial direction `l`, `l` equals `-l` and the (folded) angle
between `l` and `-l` is 0; for every polar unit vector `u`, the angle between
`u` and `-u` is 180 degrees and the angle between `u` and itself is 0. -/
theorem axial_polar_angle_spec (l u : Vec3)
    (hl : Vec3.dot l l = 1) (hu : Vec3.dot u u = 1) :
    (axialEq l l.neg ∧ angleAxial l l.neg = 0) ∧
    (angle u u.neg = 180 ∧ angle u u = 0) := by
  refine ⟨⟨Or.inr ?_, angleAxial_neg_self_unit l hl⟩,
    angle_neg_self_unit u hu, angle_self_unit u hu⟩
  ext <;> simp [Vec3.neg]

/-- Witness for C4 at the unit vector (1,0,0). -/
theorem axial_polar_angle_spec_witness :
    Vec3.dot ⟨1, 0, 0⟩ ⟨1, 0, 0⟩ = 1 ∧
    ((axialEq ⟨1, 0, 0⟩ (Vec3.neg ⟨1, 0, 0⟩) ∧
        angleAxial ⟨1, 0, 0⟩ (Vec3.neg ⟨1, 0, 0⟩) = 0) ∧
      (angle ⟨1, 0, 0⟩ (Vec3.neg ⟨1, 0, 0⟩) = 180 ∧
        angle ⟨1, 0, 0⟩ ⟨1, 0, 0⟩ = 0)) := by
  have h : Vec3.dot ⟨1, 0, 0⟩ ⟨1, 0, 0⟩ = 1 := by norm_num [Vec3.dot]
  exact ⟨h, axial_polar_angle_spec ⟨1, 0, 0⟩ ⟨1, 0, 0⟩ h h⟩

/-! ## Helper lemmas: 180-degree rotation about a perpendicular unit axis -/

theorem dot_comm (u v : Vec3) : Vec3.dot u v = Vec3.dot v u := by
  simp only [Vec3.dot]; ring

theorem cross_dot_self_eq (u v : Vec3) :
    Vec3.dot (Vec3.cross u v) (Vec3.cross u v) =
      Vec3.dot u u * Vec3.dot v v - Vec3.dot u v ^ 2 := by
  simp only [Vec3.dot, Vec3.cross]; ring

theorem cross_neg_neg (u v : Vec3) :
    Vec3.cross u.neg v.neg = Vec3.cross u v := by
  simp only [Vec3.cross, Vec3.neg, Vec3.mk.injEq]
  refine ⟨by ring, by ring, by ring⟩

theorem rad_180 : rad 180 = Real.pi := by
  rw [rad]
  field_simp

theorem rodrigues_neg_one_zero (v q : Vec3) (hqv : Vec3.dot q v = 0) :
    rodrigues v q (-1) 0 = v.neg := by
  simp only [rodrigues, hqv]
  simp only [Vec3.smul, Vec3.add, Vec3.neg, Vec3.cross, Vec3.mk.injEq]
  refine ⟨by ring, by ring, by ring⟩

theorem rotate_pi_perp (v q : Vec3) (hq : Vec3.dot q q = 1)
    (hqv : Vec3.dot q v = 0) : rotate v q 180 = v.neg := by
  rw [rotate, unit_of_dot_one q hq, rad_180, Real.cos_pi, Real.sin_pi]
  exact rodrigues_neg_one_zero v q hqv

/-! ## C2 -/

/-- C2: flipping a fault — rotating its stored (corrected, sense-folded)
lineation and foliation pole by 180 degrees about the rotation axis `rax`,
which reverses both the fault plane orientation and the movement sense —
leaves the derived P (shortening) and T (extension) axes unchanged as axial
directions. -/
theorem fault_flip_pt_invariant (l f : Vec3)
    (hl : Vec3.dot l l = 1) (hf : Vec3.dot f f = 1) (hlf : Vec3.dot l f = 0) :
    axialEq (faultP (faultFlipL l f) (faultFlipF l f)) (faultP l f) ∧
    axialEq (faultT (faultFlipL l f) (faultFlipF l f)) (faultT l f) := by
  have hq : Vec3.dot (faultRax l f) (faultRax l f) = 1 := by
    simp only [faultRax]
    rw [cross_dot_self_eq, hl, hf, dot_comm f l, hlf]
    norm_num
  have hql : Vec3.dot (faultRax l f) l = 0 := dot_cross_right f l
  have hqf : Vec3.dot (faultRax l f) f = 0 := dot_cross_left f l
  have hL : faultFlipL l f = l.neg := rotate_pi_perp l _ hq hql
  have hF : faultFlipF l f = f.neg := rotate_pi_perp f _ hq hqf
  have hrax : faultRax l.neg f.neg = faultRax l f := by
    simp only [faultRax, cross_neg_neg]
  constructor
  · simp only [faultP, hL, hF, hrax, rotate_neg]
    exact Or.inr rfl
  · simp only [faultT, hL, hF, hrax, rotate_neg]
    exact Or.inr rfl

/-- Witness for C2 at the orthonormal pair l = (1,0,0), f = (0,0,1). -/
theorem fault_flip_pt_invariant_witness :
    (Vec3.dot ⟨1, 0, 0⟩ ⟨1, 0, 0⟩ = 1 ∧ Vec3.dot ⟨0, 0, 1⟩ ⟨0, 0, 1⟩ = 1 ∧
      Vec3.dot ⟨1, 0, 0⟩ ⟨0, 0, 1⟩ = 0) ∧
    (axialEq (faultP (faultFlipL ⟨1, 0, 0⟩ ⟨0, 0, 1⟩)
        (faultFlipF ⟨1, 0, 0⟩ ⟨0, 0, 1⟩)) (faultP ⟨1, 0, 0⟩ ⟨0, 0, 1⟩) ∧
      axialEq (faultT (faultFlipL ⟨1, 0, 0⟩ ⟨0, 0, 1⟩)
        (faultFlipF ⟨1, 0, 0⟩ ⟨0, 0, 1⟩)) (faultT ⟨1, 0, 0⟩ ⟨0, 0, 1⟩)) := by
  have h1 : Vec3.dot ⟨1, 0, 0⟩ ⟨1, 0, 0⟩ = 1 := by norm_num [Vec3.dot]
  have h2 : Vec3.dot ⟨0, 0, 1⟩ ⟨0, 0, 1⟩ = 1 := by norm_num [Vec3.dot]
  have h3 : Vec3.dot ⟨1, 0, 0⟩ ⟨0, 0, 1⟩ = 0 := by norm_num [Vec3.dot]
  exact ⟨⟨h1, h2, h3⟩, fault_flip_pt_invariant _ _ h1 h2 h3⟩

/-! ## Helper lemmas: resultants commute with rotation -/

theorem foldl_add_map_rotate (vs : List Vec3) (acc a : Vec3) (theta : ℝ) :
    (vs.map (fun v => rotate v a theta)).foldl Vec3.add (rotate acc a theta) =
      rotate (vs.foldl Vec3.add acc) a theta := by
  induction vs generalizing acc with
  | nil => rfl
  | cons v rest ih =>
      simp only [List.map_cons, List.foldl_cons]
      rw [← rotate_add, ih]

theorem resultantV_map_rotate (vs : List Vec3) (a : Vec3) (theta : ℝ) :
    resultantV (vs.map (fun v => rotate v a theta)) =
      rotate (resultantV vs) a theta := by
  rw [resultantV, resultantV, ← foldl_add_map_rotate, rotate_zero_vec]

theorem axialAccum_rotate (acc v a : Vec3) (theta : ℝ) (ha : a ≠ Vec3.zero) :
    axialAccum (rotate acc a theta) (rotate v a theta) =
      rotate (axialAccum acc v) a theta := by
  rw [axialAccum, axialAccum, rotate_dot_pres acc v a theta ha]
  by_cases h : Vec3.dot acc v < 0
  · simp [h, rotate_sub]
  · simp [h, rotate_add]

theorem foldl_axial_map_rotate (vs : List Vec3) (acc a : Vec3) (theta : ℝ)
    (ha : a ≠ Vec3.zero) :
    (vs.map (fun v => rotate v a theta)).foldl axialAccum (rotate acc a theta) =
      rotate (vs.foldl axialAccum acc) a theta := by
  induction vs generalizing acc with
  | nil => rfl
  | cons v rest ih =>
      simp only [List.map_cons, List.foldl_cons]
      rw [axialAccum_rotate acc v a theta ha, ih]

theorem resultantA_map_rotate (vs : List Vec3) (a : Vec3) (theta : ℝ)
    (ha : a ≠ Vec3.zero) :
    resultantA (vs.map (fun v => rotate v a theta)) =
      rotate (resultantA vs) a theta := by
  rw [resultantA, resultantA, ← foldl_axial_map_rotate vs Vec3.zero a theta ha,
    rotate_zero_vec]

/-! ## C3 -/

/-- C3: for every feature set (vector or axial) and every rotation (any
nonzero axis, any angle in degrees), the length of `resultant()` and the
value of `rdegree` computed on the rotated set equal those computed on the
original set. -/
theorem featureset_rotation_invariant (vs : List Vec3) (a : Vec3) (theta : ℝ)
    (ha : a ≠ Vec3.zero) :
    Vec3.norm (resultantV (vs.map (fun v => rotate v a theta))) =
        Vec3.norm (resultantV vs) ∧
    Vec3.norm (resultantA (vs.map (fun v => rotate v a theta))) =
        Vec3.norm (resultantA vs) ∧
    rdegreeV (vs.map (fun v => rotate v a theta)) = rdegreeV vs ∧
    rdegreeA (vs.map (fun v => rotate v a theta)) = rdegreeA vs := by
  have hV : Vec3.norm (resultantV (vs.map (fun v => rotate v a theta))) =
      Vec3.norm (resultantV vs) := by
    rw [resultantV_map_rotate, rotate_norm _ a theta ha]
  have hA : Vec3.norm (resultantA (vs.map (fun v => rotate v a theta))) =
      Vec3.norm (resultantA vs) := by
    rw [resultantA_map_rotate vs a theta ha, rotate_norm _ a theta ha]
  refine ⟨hV, hA, ?_, ?_⟩
  · rw [rdegreeV, rdegreeV, hV, List.length_map]
  · rw [rdegreeA, rdegreeA, hA, List.length_map]

/-- Witness for C3: a one-element set rotated by 90 degrees about the z axis. -/
theorem featureset_rotation_invariant_witness :
    (⟨0, 0, 1⟩ : Vec3) ≠ Vec3.zero ∧
    (Vec3.norm (resultantV ([⟨1, 0, 0⟩].map (fun v => rotate v ⟨0, 0, 1⟩ 90))) =
        Vec3.norm (resultantV [⟨1, 0, 0⟩]) ∧
      Vec3.norm (resultantA ([⟨1, 0, 0⟩].map (fun v => rotate v ⟨0, 0, 1⟩ 90))) =
        Vec3.norm (resultantA [⟨1, 0, 0⟩]) ∧
      rdegreeV ([⟨1, 0, 0⟩].map (fun v => rotate v ⟨0, 0, 1⟩ 90)) =
        rdegreeV [⟨1, 0, 0⟩] ∧
      rdegreeA ([⟨1, 0, 0⟩].map (fun v => rotate v ⟨0, 0, 1⟩ 90)) =
        rdegreeA [⟨1, 0, 0⟩]) := by
  have h : (⟨0, 0, 1⟩ : Vec3) ≠ Vec3.zero := by
    intro hc
    have := congrArg Vec3.z hc
    simp [Vec3.zero] at this
  exact ⟨h, featureset_rotation_invariant [⟨1, 0, 0⟩] ⟨0, 0, 1⟩ 90 h⟩

/-! ## C1 -/

/-- The corrected lineation and foliation pole of a Pair are orthogonal:
their dot product vanishes.  `l`, `f` are the unit input lineation and
foliation pole; they must not be collinear (the mutual cross-product
rotation axis of the correction must be nonzero). -/
theorem pair_corrected_dot_zero (l f : Vec3)
    (hl : Vec3.dot l l = 1) (hf : Vec3.dot f f = 1)
    (hnp : Vec3.cross l f ≠ Vec3.zero) :
    Vec3.dot (pairLvec l f) (pairFvec l f) = 0 := by
  have hpi : (Real.pi : ℝ) ≠ 0 := Real.pi_ne_zero
  have hqq : Vec3.normsq (Vec3.cross l f) = 1 - Vec3.dot l f ^ 2 := by
    rw [normsq_eq_dot, cross_dot_self_eq, hl, hf]
    ring
  have hnpos : 0 < Vec3.norm (Vec3.cross l f) := norm_pos _ hnp
  have hn2 : Vec3.norm (Vec3.cross l f) ^ 2 = 1 - Vec3.dot l f ^ 2 := by
    rw [norm_sq_eq, hqq]
  have hCll : -1 ≤ Vec3.dot l f := by nlinarith
  have hClr : Vec3.dot l f ≤ 1 := by nlinarith
  have hkk : Vec3.dot (Vec3.unit (Vec3.cross l f)) (Vec3.unit (Vec3.cross l f)) = 1 :=
    unit_dot_self _ hnp
  have hkl : Vec3.dot (Vec3.unit (Vec3.cross l f)) l = 0 := by
    rw [Vec3.unit, dot_smul_left, dot_cross_left]
    ring
  have hkq : Vec3.dot (Vec3.unit (Vec3.cross l f)) (Vec3.cross l f) =
      Vec3.norm (Vec3.cross l f) := by
    rw [Vec3.unit, dot_smul_left, ← normsq_eq_dot, ← norm_sq_eq]
    field_simp
    ring
  have hsqn : Vec3.norm (Vec3.cross l f) = Real.sqrt (1 - Vec3.dot l f ^ 2) := by
    rw [Vec3.norm, hqq]
  have hang : angle l f = deg (Real.arccos (Vec3.dot l f)) := by
    rw [angle, norm_eq_one l hl, norm_eq_one f hf]
    norm_num
  have hr : rad (-(pairMisfit l f) / 2) - rad (pairMisfit l f / 2) =
      Real.arccos (Vec3.dot l f) - Real.pi / 2 := by
    simp only [pairMisfit, hang, rad, deg]
    field_simp
    ring
  have hcos : Real.cos (rad (-(pairMisfit l f) / 2)) *
        Real.cos (rad (pairMisfit l f / 2)) +
      Real.sin (rad (-(pairMisfit l f) / 2)) *
        Real.sin (rad (pairMisfit l f / 2)) =
      Real.sqrt (1 - Vec3.dot l f ^ 2) := by
    rw [← Real.cos_sub, hr,
      show Real.arccos (Vec3.dot l f) - Real.pi / 2 =
        -(Real.pi / 2 - Real.arccos (Vec3.dot l f)) by ring,
      Real.cos_neg, Real.cos_pi_div_two_sub, Real.sin_arccos]
  have hsin : Real.sin (rad (-(pairMisfit l f) / 2)) *
        Real.cos (rad (pairMisfit l f / 2)) -
      Real.cos (rad (-(pairMisfit l f) / 2)) *
        Real.sin (rad (pairMisfit l f / 2)) =
      -(Vec3.dot l f) := by
    rw [← Real.sin_sub, hr,
      show Real.arccos (Vec3.dot l f) - Real.pi / 2 =
        -(Real.pi / 2 - Real.arccos (Vec3.dot l f)) by ring,
      Real.sin_neg, Real.sin_pi_div_two_sub, Real.cos_arccos hCll hClr]
  have hmain := rodrigues_perp_dot l f (Vec3.unit (Vec3.cross l f))
    (Real.cos (rad (-(pairMisfit l f) / 2))) (Real.sin (rad (-(pairMisfit l f) / 2)))
    (Real.cos (rad (pairMisfit l f / 2))) (Real.sin (rad (pairMisfit l f / 2)))
    hkk hkl
  simp only [pairLvec, pairFvec, rotate]
  rw [hmain, hcos, hsin, hkq, hsqn]
  ring

/-- C1: a Pair constructed from unit lineation and foliation-pole inputs that
are neither collinear (nonzero mutual cross product) nor exactly orthogonal
has corrected lineation and foliation pole at an angle of exactly 90 degrees,
whatever the input misfit; and the orthogonality is preserved when the Pair
is rotated about any (nonzero) axis by any angle. -/
theorem pair_corrected_orthogonal (l f axis : Vec3) (theta : ℝ)
    (hl : Vec3.dot l l = 1) (hf : Vec3.dot f f = 1)
    (hnp : Vec3.cross l f ≠ Vec3.zero) (hno : Vec3.dot l f ≠ 0)
    (haxis : axis ≠ Vec3.zero) :
    angle (pairLvec l f) (pairFvec l f) = 90 ∧
    angle (rotate (pairLvec l f) axis theta)
      (rotate (pairFvec l f) axis theta) = 90 := by
  have hdot := pair_corrected_dot_zero l f hl hf hnp
  have hL1 : Vec3.dot (pairLvec l f) (pairLvec l f) = 1 := by
    rw [pairLvec, rotate_dot_pres l l _ _ hnp, hl]
  have hF1 : Vec3.dot (pairFvec l f) (pairFvec l f) = 1 := by
    rw [pairFvec, rotate_dot_pres f f _ _ hnp, hf]
  refine ⟨angle_eq_ninety _ _ hL1 hF1 hdot, ?_⟩
  have hL2 : Vec3.dot (rotate (pairLvec l f) axis theta)
      (rotate (pairLvec l f) axis theta) = 1 := by
    rw [rotate_dot_pres _ _ axis theta haxis, hL1]
  have hF2 : Vec3.dot (rotate (pairFvec l f) axis theta)
      (rotate (pairFvec l f) axis theta) = 1 := by
    rw [rotate_dot_pres _ _ axis theta haxis, hF1]
  have hdot2 : Vec3.dot (rotate (pairLvec l f) axis theta)
      (rotate (pairFvec l f) axis theta) = 0 := by
    rw [rotate_dot_pres _ _ axis theta haxis, hdot]
  exact angle_eq_ninety _ _ hL2 hF2 hdot2

/-- Witness for C1: the unit pair l = (1,0,0), f = (24/25,7/25,0) (misfit
about 16 degrees), rotated about the z axis by 37 degrees. -/
theorem pair_corrected_orthogonal_witness :
    (Vec3.dot ⟨1, 0, 0⟩ ⟨1, 0, 0⟩ = 1 ∧
      Vec3.dot ⟨24/25, 7/25, 0⟩ ⟨24/25, 7/25, 0⟩ = 1 ∧
      Vec3.cross ⟨1, 0, 0⟩ ⟨24/25, 7/25, 0⟩ ≠ Vec3.zero ∧
      Vec3.dot ⟨1, 0, 0⟩ ⟨24/25, 7/25, 0⟩ ≠ 0 ∧
      (⟨0, 0, 1⟩ : Vec3) ≠ Vec3.zero) ∧
    (angle (pairLvec ⟨1, 0, 0⟩ ⟨24/25, 7/25, 0⟩)
        (pairFvec ⟨1, 0, 0⟩ ⟨24/25, 7/25, 0⟩) = 90 ∧
      angle (rotate (pairLvec ⟨1, 0, 0⟩ ⟨24/25, 7/25, 0⟩) ⟨0, 0, 1⟩ 37)
        (rotate (pairFvec ⟨1, 0, 0⟩ ⟨24/25, 7/25, 0⟩) ⟨0, 0, 1⟩ 37) = 90) := by
  have h1 : Vec3.dot ⟨1, 0, 0⟩ ⟨1, 0, 0⟩ = 1 := by norm_num [Vec3.dot]
  have h2 : Vec3.dot ⟨24/25, 7/25, 0⟩ ⟨24/25, 7/25, 0⟩ = 1 := by
    norm_num [Vec3.dot]
  have h3 : Vec3.cross ⟨1, 0, 0⟩ ⟨24/25, 7/25, 0⟩ ≠ Vec3.zero := by
    intro hc
    have := congrArg Vec3.z hc
    norm_num [Vec3.cross, Vec3.zero] at this
  have h4 : Vec3.dot ⟨1, 0, 0⟩ ⟨24/25, 7/25, 0⟩ ≠ 0 := by
    norm_num [Vec3.dot]
  have h5 : (⟨0, 0, 1⟩ : Vec3) ≠ Vec3.zero := by
    intro hc
    have := congrArg Vec3.z hc
    norm_num [Vec3.zero] at this
  exact ⟨⟨h1, h2, h3, h4, h5⟩,
    pair_corrected_orthogonal ⟨1, 0, 0⟩ ⟨24/25, 7/25, 0⟩ ⟨0, 0, 1⟩ 37 h1 h2 h3 h4 h5⟩

/-! ## C5 -/

theorem parseJsonData_to_json (o : DataObj) :
    parseJsonData o.to_json = some o := by
  cases o <;> rfl

theorem parseDataEntries_map_to_json (d : List (Nat × DataObj)) :
    parseDataEntries (d.map (fun e => (e.1, e.2.to_json))) = some d := by
  induction d with
  | nil => rfl
  | cons e rest ih =>
      simp only [List.map_cons, parseDataEntries, parseJsonData_to_json, ih]

/-- C5: `StereoNet.from_json (StereoNet.to_json s)` reconstructs a net whose
constructor kwargs, cached data objects (rebuilt from their type tag and
defining arguments) and artist records equal those of `s`. -/
theorem stereonet_json_roundtrip (s : SNet) :
    SNet.from_json (SNet.to_json s) = some s := by
  rcases s with ⟨kw, d, ar⟩
  simp only [SNet.to_json, SNet.from_json, parseDataEntries_map_to_json,
    Option.map]

/-- Witness for C5 at a concrete net with one artist referencing a cached
fault. -/
theorem stereonet_json_roundtrip_witness :
    SNet.from_json (SNet.to_json
        ⟨[("kind", "Equal-area")], [(11, .fault 90 30 110 28 (-1))],
          [⟨"_line", [11], "{}"⟩]⟩) =
      some ⟨[("kind", "Equal-area")], [(11, .fault 90 30 110 28 (-1))],
        [⟨"_line", [11], "{}"⟩]⟩ :=
  stereonet_json_roundtrip _

/-! ## C6 -/

theorem projection_names_disjoint (s : String)
    (h : s ∈ ["equal-area", "schmidt", "earea"]) :
    s ∉ ["equal-angle", "wulff", "eangle"] := by
  fin_cases h <;> decide

/-- C6: constructing a StereoNet with an unsupported projection-kind name
fails (the `TypeError` branch, modelled as `none`), while every supported
name — case-insensitively `equal-area`, `schmidt`, `earea`, `equal-angle`,
`wulff`, `eangle` — succeeds and selects the corresponding projection. -/
theorem projection_kind_selection (kind : String) :
    (selectProjection kind = some ProjKind.equalArea ↔
      kind.toLower ∈ ["equal-area", "schmidt", "earea"]) ∧
    (selectProjection kind = some ProjKind.equalAngle ↔
      kind.toLower ∈ ["equal-angle", "wulff", "eangle"]) ∧
    (selectProjection kind = none ↔
      kind.toLower ∉ ["equal-area", "schmidt", "earea"] ∧
        kind.toLower ∉ ["equal-angle", "wulff", "eangle"]) := by
  simp only [selectProjection]
  split_ifs with h1 h2
  · exact ⟨by simp [h1], by simp [projection_names_disjoint _ h1], by simp [h1]⟩
  · exact ⟨by simp [h1], by simp [h2], by simp [h2]⟩
  · exact ⟨by simp [h1], by simp [h2], by simp [h1, h2]⟩

/-- Witness for C6 at the supported name `Schmidt` (mixed case). -/
theorem projection_kind_selection_witness :
    (selectProjection "Schmidt" = some ProjKind.equalArea ↔
      "Schmidt".toLower ∈ ["equal-area", "schmidt", "earea"]) ∧
    (selectProjection "Schmidt" = some ProjKind.equalAngle ↔
      "Schmidt".toLower ∈ ["equal-angle", "wulff", "eangle"]) ∧
    (selectProjection "Schmidt" = none ↔
      "Schmidt".toLower ∉ ["equal-area", "schmidt", "earea"] ∧
        "Schmidt".toLower ∉ ["equal-angle", "wulff", "eangle"]) :=
  projection_kind_selection "Schmidt"

/-! ## C10 -/

theorem dataKeys_append (d e : List (Nat × AVal)) :
    dataKeys (d ++ e) = dataKeys d ++ dataKeys e := by
  simp [dataKeys]

theorem dataKeys_cacheArgs_mono (args : List Arg) (d : List (Nat × AVal))
    (i : Nat) (hi : i ∈ dataKeys d) : i ∈ dataKeys (cacheArgs d args) := by
  induction args generalizing d with
  | nil => exact hi
  | cons a rest ih =>
      rw [cacheArgs]
      apply ih
      by_cases h : (dataKeys d).contains a.aid
      · simp only [h, if_pos]
        exact hi
      · simp only [h, if_neg, Bool.false_eq_true, not_false_eq_true]
        rw [dataKeys_append]
        exact List.mem_append_left _ hi

theorem cacheArgs_covers (args : List Arg) (d : List (Nat × AVal))
    (a : Arg) (ha : a ∈ args) : a.aid ∈ dataKeys (cacheArgs d args) := by
  induction args generalizing d with
  | nil => cases ha
  | cons b rest ih =>
      rw [cacheArgs]
      rcases List.mem_cons.mp ha with rfl | ha
      · apply dataKeys_cacheArgs_mono
        by_cases h : (dataKeys d).contains a.aid
        · simp only [h, if_pos]
          exact List.elem_iff.mp h
        · simp only [h, if_neg, Bool.false_eq_true, not_false_eq_true]
          rw [dataKeys_append]
          apply List.mem_append_right
          simp [dataKeys]
      · exact ih _ ha

theorem addArtist_idsClosed (st : NetState) (method : String) (args : List Arg)
    (kw : String) (h : idsClosed st) : idsClosed (addArtist st method args kw) := by
  intro ar har i hi
  simp only [addArtist] at har ⊢
  rcases List.mem_append.mp har with har | har
  · exact dataKeys_cacheArgs_mono args _ i (h ar har i hi)
  · simp only [List.mem_singleton] at har
    subst har
    simp only at hi
    rcases List.mem_map.mp hi with ⟨a, ha, rfl⟩
    exact cacheArgs_covers args _ a ha

theorem stepValidated_idsClosed (st : NetState) (method : String)
    (args : List Arg) (kw : String) (r : Option VOutcome) (h : idsClosed st) :
    idsClosed (stepValidated st method args kw r).1 := by
  cases r with
  | none => exact h
  | some v =>
      cases v with
      | accept => exact addArtist_idsClosed st method args kw h
      | reject p => exact h

theorem step_idsClosed (st : NetState) (c : PlotCall) (h : idsClosed st) :
    idsClosed (step st c).1 := by
  cases c with
  | clear =>
      intro ar har
      simp only [step] at har
      cases har
  | pole args kw => exact h
  | line args kw => exact stepValidated_idsClosed st _ args kw _ h
  | vector args kw => exact stepValidated_idsClosed st _ args kw _ h
  | greatCircle args kw => exact stepValidated_idsClosed st _ args kw _ h
  | cone args kw => exact stepValidated_idsClosed st _ args kw _ h
  | contourf args kw => exact stepValidated_idsClosed st _ args kw _ h

theorem runCalls_idsClosed (cs : List PlotCall) (st : NetState)
    (h : idsClosed st) : idsClosed (runCalls st cs) := by
  induction cs generalizing st with
  | nil => exact h
  | cons c rest ih =>
      rw [runCalls, List.foldl_cons]
      exact ih _ (step_idsClosed st c h)

theorem stepValidated_draws (st : NetState) (method : String)
    (args : List Arg) (kw : String) (r : Option VOutcome) :
    (stepValidated st method args kw r).2.1 = [] := by
  cases r with
  | none => rfl
  | some v => cases v <;> rfl

theorem stepValidated_accept_state (st : NetState) (method : String)
    (args : List Arg) (kw : String) :
    (stepValidated st method args kw (some .accept)).1 =
      addArtist st method args kw := rfl

theorem stepValidated_state_of_not_accept (st : NetState) (method : String)
    (args : List Arg) (kw : String) (r : Option VOutcome)
    (h : r ≠ some VOutcome.accept) :
    (stepValidated st method args kw r).1 = st := by
  cases r with
  | none => rfl
  | some v =>
      cases v with
      | accept => exact absurd rfl h
      | reject p => rfl

/-- C10, settled as a code bug of `pole`: after any sequence of plotting and
`clear` calls from a fresh StereoNet, every object id listed in the args of
any `_artists` record is a key of the `_data` cache; every call issues no
draw commands (drawing is deferred to `show`); a plotting call whose
validator accepts its arguments appends exactly one artist record and only
extends the data cache with those arguments; a plotting call whose arguments
are not accepted leaves the state unchanged; and — the code bug — every
`pole` call, whatever its arguments, raises `AttributeError` with the state
unchanged (its validator `__validate_planar_args` is undefined), so `pole`
can never validate or append the artist its docstring promises. -/
theorem deferred_plotting_invariant (sw : Bool) (cs : List PlotCall)
    (st : NetState) (c : PlotCall) (pargs : List Arg) (pkw : String) :
    idsClosed (runCalls (initState sw) cs) ∧
    (step st c).2.1 = [] ∧
    (callAccepts c = true →
      (step st c).1.artists =
        st.artists ++ [⟨callMethod c, (callArgs c).map Arg.aid, callKw c⟩] ∧
      (step st c).1.data = cacheArgs st.data (callArgs c)) ∧
    (c.isPlotting = true → callAccepts c = false → (step st c).1 = st) ∧
    step st (.pole pargs pkw) = (st, [], Outcome.raised) := by
  refine ⟨runCalls_idsClosed cs _ ?_, ?_, ?_, ?_, rfl⟩
  · intro ar har
    cases har
  · cases c with
    | clear => rfl
    | pole args kw => rfl
    | line args kw => exact stepValidated_draws st _ args kw _
    | vector args kw => exact stepValidated_draws st _ args kw _
    | greatCircle args kw => exact stepValidated_draws st _ args kw _
    | cone args kw => exact stepValidated_draws st _ args kw _
    | contourf args kw => exact stepValidated_draws st _ args kw _
  · intro hacc
    cases c with
    | clear => simp [callAccepts] at hacc
    | pole args kw => simp [callAccepts] at hacc
    | line args kw =>
        cases hv : validateLinearArgs args with
        | accept =>
            simp only [step, hv, stepValidated_accept_state]
            simp [addArtist, callMethod, callArgs, callKw]
        | reject p =>
            rw [callAccepts, hv] at hacc
            simp [VOutcome.isAccept] at hacc
    | vector args kw =>
        cases hv : validateLinearArgs args with
        | accept =>
            simp only [step, hv, stepValidated_accept_state]
            simp [addArtist, callMethod, callArgs, callKw]
        | reject p =>
            rw [callAccepts, hv] at hacc
            simp [VOutcome.isAccept] at hacc
    | greatCircle args kw =>
        cases hv : validateGreatCircleArgs args with
        | accept =>
            simp only [step, hv, stepValidated_accept_state]
            simp [addArtist, callMethod, callArgs, callKw]
        | reject p =>
            rw [callAccepts, hv] at hacc
            simp [VOutcome.isAccept] at hacc
    | cone args kw =>
        cases hv : validateConeArgs args with
        | none =>
            rw [callAccepts, hv] at hacc
            simp at hacc
        | some v =>
            cases v with
            | accept =>
                simp only [step, hv, stepValidated_accept_state]
                simp [addArtist, callMethod, callArgs, callKw]
            | reject p =>
                rw [callAccepts, hv] at hacc
                simp [VOutcome.isAccept] at hacc
    | contourf args kw =>
        cases hv : validateContourfArgs args with
        | accept =>
            simp only [step, hv, stepValidated_accept_state]
            simp [addArtist, callMethod, callArgs, callKw]
        | reject p =>
            rw [callAccepts, hv] at hacc
            simp [VOutcome.isAccept] at hacc
  · intro hp hacc
    cases c with
    | clear => cases hp
    | pole args kw => rfl
    | line args kw =>
        rw [callAccepts] at hacc
        simp only [step]
        apply stepValidated_state_of_not_accept
        intro hc
        rw [Option.some.injEq] at hc
        rw [hc] at hacc
        cases hacc
    | vector args kw =>
        rw [callAccepts] at hacc
        simp only [step]
        apply stepValidated_state_of_not_accept
        intro hc
        rw [Option.some.injEq] at hc
        rw [hc] at hacc
        cases hacc
    | greatCircle args kw =>
        rw [callAccepts] at hacc
        simp only [step]
        apply stepValidated_state_of_not_accept
        intro hc
        rw [Option.some.injEq] at hc
        rw [hc] at hacc
        cases hacc
    | cone args kw =>
        rw [callAccepts] at hacc
        simp only [step]
        apply stepValidated_state_of_not_accept
        intro hc
        rw [hc] at hacc
        cases hacc
    | contourf args kw =>
        rw [callAccepts] at hacc
        simp only [step]
        apply stepValidated_state_of_not_accept
        intro hc
        rw [Option.some.injEq] at hc
        rw [hc] at hacc
        cases hacc

/-- Witness for C10: one valid `line` call on a fresh net, and a `pole` call
with a perfectly well-typed `Foliation` argument that nevertheless raises. -/
theorem deferred_plotting_invariant_witness :
    (PlotCall.line [⟨1, .vec⟩] "kw").isPlotting = true ∧
    callAccepts (PlotCall.line [⟨1, .vec⟩] "kw") = true ∧
    idsClosed (runCalls (initState true) [PlotCall.line [⟨1, .vec⟩] "kw"]) ∧
    (step (initState true) (PlotCall.line [⟨1, .vec⟩] "kw")).1.artists =
      (initState true).artists ++ [⟨"_line", [1], "kw"⟩] ∧
    step (initState true) (.pole [⟨2, .foliation⟩] "kw") =
      (initState true, [], Outcome.raised) := by
  have h := deferred_plotting_invariant true [PlotCall.line [⟨1, .vec⟩] "kw"]
    (initState true) (PlotCall.line [⟨1, .vec⟩] "kw") [⟨2, .foliation⟩] "kw"
  exact ⟨by decide, by decide, h.1, (h.2.2.1 (by decide)).1, h.2.2.2.2⟩

/-! ## C7 -/

/-- Counterexample to C7 as stated: passing a wrongly-typed argument (a bare
int) to `StereoNet.line` is not surfaced to the caller as an error — the call
returns normally after printing a warning (`show_warnings` defaults on) and
the state is unchanged; no exception is raised. -/
theorem plot_type_error_not_raised :
    step (initState true) (.line [⟨7, .num 1⟩] "{}") =
      (initState true, [], Outcome.warned) ∧
    Outcome.warned ≠ Outcome.raised := by
  exact ⟨by decide, by decide⟩

/-- C7 amended: a `FeatureSet` constructed from heterogeneous or wrong-typed
elements raises immediately (`"Data must be instances of ..."`); but a
wrongly-typed argument list passed to `StereoNet.line`, `StereoNet.vector`
or `StereoNet.great_circle` is not surfaced as an error — the call is
skipped with at most a printed warning and the plot state unchanged, nothing
is raised; and `StereoNet.pole` never even reaches a type check: every
`pole` call raises `AttributeError` (its validator `__validate_planar_args`
is undefined) with the plot state unchanged. -/
theorem plot_wrong_type_warns_featureset_raises
    (st : NetState) (args : List Arg) (kw : String) (dtype : String)
    (elems : List AVal)
    (hl : validateLinearArgs args ≠ VOutcome.accept)
    (hg : validateGreatCircleArgs args ≠ VOutcome.accept)
    (he : elems.all (matchesDtype dtype) = false) :
    ((step st (.line args kw)).1 = st ∧
      ((step st (.line args kw)).2.2 = Outcome.warned ∨
        (step st (.line args kw)).2.2 = Outcome.silent)) ∧
    ((step st (.vector args kw)).1 = st ∧
      ((step st (.vector args kw)).2.2 = Outcome.warned ∨
        (step st (.vector args kw)).2.2 = Outcome.silent)) ∧
    ((step st (.greatCircle args kw)).1 = st ∧
      ((step st (.greatCircle args kw)).2.2 = Outcome.warned ∨
        (step st (.greatCircle args kw)).2.2 = Outcome.silent)) ∧
    step st (.pole args kw) = (st, [], Outcome.raised) ∧
    featureSetMk dtype elems =
      Except.error ("Data must be instances of " ++ dtype) := by
  have skip : ∀ (method : String) (v : VOutcome), v ≠ VOutcome.accept →
      (stepValidated st method args kw (some v)).1 = st ∧
      ((stepValidated st method args kw (some v)).2.2 = Outcome.warned ∨
        (stepValidated st method args kw (some v)).2.2 = Outcome.silent) := by
    intro method v hv
    cases v with
    | accept => exact absurd rfl hv
    | reject p =>
        refine ⟨rfl, ?_⟩
        simp only [stepValidated]
        split_ifs <;> simp
  refine ⟨?_, ?_, ?_, rfl, ?_⟩
  · exact skip "_line" _ hl
  · exact skip "_vector" _ hl
  · exact skip "_great_circle" _ hg
  · simp [featureSetMk, he]

/-- Witness for the amended C7: the methods called with a bare int, and a
lineation set built from a foliation and a lineation (the heterogeneous case
of `test_group_heterogenous_error`). -/
theorem plot_wrong_type_warns_featureset_raises_witness :
    (validateLinearArgs [⟨7, .num 1⟩] ≠ VOutcome.accept ∧
      validateGreatCircleArgs [⟨7, .num 1⟩] ≠ VOutcome.accept ∧
      ([AVal.foliation, AVal.lineation].all (matchesDtype "Lineation")) = false) ∧
    (((step (initState true) (.line [⟨7, .num 1⟩] "{}")).1 = initState true ∧
        ((step (initState true) (.line [⟨7, .num 1⟩] "{}")).2.2 = Outcome.warned ∨
          (step (initState true) (.line [⟨7, .num 1⟩] "{}")).2.2 = Outcome.silent)) ∧
      ((step (initState true) (.vector [⟨7, .num 1⟩] "{}")).1 = initState true ∧
        ((step (initState true) (.vector [⟨7, .num 1⟩] "{}")).2.2 = Outcome.warned ∨
          (step (initState true) (.vector [⟨7, .num 1⟩] "{}")).2.2 = Outcome.silent)) ∧
      ((step (initState true) (.greatCircle [⟨7, .num 1⟩] "{}")).1 = initState true ∧
        ((step (initState true) (.greatCircle [⟨7, .num 1⟩] "{}")).2.2 = Outcome.warned ∨
          (step (initState true) (.greatCircle [⟨7, .num 1⟩] "{}")).2.2 = Outcome.silent)) ∧
      step (initState true) (.pole [⟨7, .num 1⟩] "{}") =
        (initState true, [], Outcome.raised) ∧
      featureSetMk "Lineation" [AVal.foliation, AVal.lineation] =
        Except.error ("Data must be instances of " ++ "Lineation")) :=
  ⟨⟨by decide, by decide, by decide⟩,
    plot_wrong_type_warns_featureset_raises (initState true) [⟨7, .num 1⟩] "{}"
      "Lineation" [AVal.foliation, AVal.lineation] (by decide) (by decide)
      (by decide)⟩

/-! ## C8 -/

/-- C8: plotting a true (non-axial) vector projects the vector and its
negation separately via `project_data_antipodal`, draws the lower-hemisphere
point with a filled marker of the given color, and draws the upper-hemisphere
point with an open marker (`mfc = "none"`) of the same color and with no
legend label. -/
theorem vector_plotted_antipodal_filled_open
    (project : Vec3Q → ℚ × ℚ) (v : Vec3Q) (color : String)
    (lbl : Option String) :
    projectAntipodal project v = (project v, project v.neg) ∧
    vectorDraw project v (parseVectorKw (some color) lbl) =
      [⟨project v, ⟨some color, some color, lbl⟩⟩,
        ⟨project v.neg, ⟨some color, some "none", none⟩⟩] :=
  ⟨rfl, rfl⟩

/-! ## C9 -/

theorem curvePath_countP_none {F : Type} (lower upper : F → List (ℚ × ℚ))
    (feats : List F) :
    (curvePath lower upper feats).countP (fun a => a.isNone) =
      2 * feats.length := by
  induction feats with
  | nil => rfl
  | cons f rest ih =>
      have hc : curvePath lower upper (f :: rest) =
          (((lower f).map some ++ [none]) ++ ((upper f).map some ++ [none])) ++
            curvePath lower upper rest := rfl
      rw [hc, List.countP_append, ih, List.countP_append, List.countP_append,
        List.countP_append]
      have hm1 : ((lower f).map some).countP (fun a => a.isNone) = 0 := by
        rw [List.countP_eq_zero]
        intro a ha
        rcases List.mem_map.mp ha with ⟨p, _, rfl⟩
        simp
      have hm2 : ((upper f).map some).countP (fun a => a.isNone) = 0 := by
        rw [List.countP_eq_zero]
        intro a ha
        rcases List.mem_map.mp ha with ⟨p, _, rfl⟩
        simp
      rw [hm1, hm2]
      simp [List.countP_cons]
      ring

theorem curvePath_getLast {F : Type} (lower upper : F → List (ℚ × ℚ))
    (feats : List F) (hne : feats ≠ []) :
    (curvePath lower upper feats).getLast? = some none := by
  induction feats with
  | nil => exact absurd rfl hne
  | cons f rest ih =>
      have hc : curvePath lower upper (f :: rest) =
          (((lower f).map some ++ [none]) ++ ((upper f).map some ++ [none])) ++
            curvePath lower upper rest := rfl
      by_cases h : rest = []
      · subst h
        rw [hc]
        simp only [curvePath, List.flatMap_nil, List.append_nil]
        rw [List.append_assoc, ← List.append_assoc, ← List.append_assoc]
        exact List.getLast?_concat _
      · have hlast := ih h
        have hnil : curvePath lower upper rest ≠ [] := by
          intro hn
          rw [hn] at hlast
          cases hlast
        rw [hc, List.getLast?_append_of_ne_nil _ hnil]
        exact hlast

theorem splitBreaks_head (p : ℚ × ℚ) (rest : List (ℚ × ℚ)) :
    (splitBreaks (p :: rest)).head? = some (some p) := by
  cases rest with
  | nil => rfl
  | cons q r =>
      rw [splitBreaks]
      split <;> rfl

theorem splitBreaks_chain : ∀ pts : List (ℚ × ℚ),
    List.Chain' noChord (splitBreaks pts)
  | [] => by simp [splitBreaks]
  | [p] => by simp [splitBreaks]
  | p :: q :: rest => by
      have ih := splitBreaks_chain (q :: rest)
      rw [splitBreaks]
      split
      · rw [List.chain'_cons']
        refine ⟨?_, ?_⟩
        · intro y hy p' q' h1 h2
          simp only [List.head?_cons, Option.mem_def, Option.some.injEq] at hy
          rw [← hy] at h2
          cases h2
        · rw [List.chain'_cons']
          refine ⟨?_, ih⟩
          intro y hy p' q' h1 h2
          cases h1
      · next h =>
          rw [List.chain'_cons']
          refine ⟨?_, ih⟩
          intro y hy p' q' h1 h2
          rw [splitBreaks_head q rest] at hy
          simp only [Option.mem_def, Option.some.injEq] at hy
          rw [← hy] at h2
          cases h1
          cases h2
          exact le_of_not_lt (by simpa using h)

theorem splitBreaks_filterMap : ∀ pts : List (ℚ × ℚ),
    (splitBreaks pts).filterMap id = pts
  | [] => rfl
  | [p] => rfl
  | p :: q :: rest => by
      rw [splitBreaks]
      split <;> simp [splitBreaks_filterMap (q :: rest), List.filterMap_cons]

/-- C9: every polyline generated for a great circle or small circle carries
NaN break markers: each generated curve branch (lower and upper hemisphere,
for each feature) is terminated by a NaN entry — in particular a nonempty
argument list yields a polyline ending in NaN, with exactly two NaN markers
per feature — and, where splitting is applied (`split=True` in
`StereoNetOld._cone`), a NaN is inserted between consecutive projected
points whose distance jumps above the break threshold, so that no rendered
segment spans such a jump and the actual points are preserved in order. -/
theorem curve_break_markers {F : Type} (lower upper : F → List (ℚ × ℚ))
    (feats : List F) (pts : List (ℚ × ℚ)) :
    ((curvePath lower upper feats).countP (fun a => a.isNone) =
        2 * feats.length ∧
      (feats ≠ [] → (curvePath lower upper feats).getLast? = some none)) ∧
    (List.Chain' noChord (splitBreaks pts) ∧
      (splitBreaks pts).filterMap id = pts) :=
  ⟨⟨curvePath_countP_none lower upper feats,
      fun hne => curvePath_getLast lower upper feats hne⟩,
    splitBreaks_chain pts, splitBreaks_filterMap pts⟩

/-- Witness for C9: one feature, and a two-point polyline whose projected
points jump further apart than the break threshold. -/
theorem curve_break_markers_witness :
    ([()] : List Unit) ≠ [] ∧
    ((curvePath (fun _ => [((0 : ℚ), (0 : ℚ))]) (fun _ => [((1 : ℚ), (0 : ℚ))])
        [()]).getLast? = some none ∧
      List.Chain' noChord (splitBreaks [((0 : ℚ), (0 : ℚ)), ((5 : ℚ), (5 : ℚ))])) := by
  have h := curve_break_markers (fun _ => [((0 : ℚ), (0 : ℚ))])
    (fun _ => [((1 : ℚ), (0 : ℚ))]) [()] [((0 : ℚ), (0 : ℚ)), ((5 : ℚ), (5 : ℚ))]
  exact ⟨by decide, h.1.2 (by decide), h.2.1⟩
